import Mathlib

/-!
# pkg/store/gorm/orm.go

A shallow embedding of `WithContext` and `Open` (with its local closure
`replace`) from `pkg/store/gorm/orm.go`.

The Go code works on `*gorm.DB` handles that are mutated in place.  Handles are
therefore addresses into an explicit heap, and every engine method that mutates
its receiver is a heap transformer.  The database engine
(`github.com/jinzhu/gorm` on top of `database/sql`) is an external dependency of
the repository: the part of its interface that `orm.go` calls is modelled
below, the engine's own `Open` is a parameter of the environment.  The pool
setters follow `database/sql`, which normalises their arguments; the callback
registry is described per handle, as that handle observes it.
-/

namespace OrmGorm

/-! ## The engine's data, as far as `orm.go` touches it -/

/-- Address of a `*gorm.DB` handle.  The nil handle is `none : Option Ptr`. -/
abbrev Ptr := Nat

/-- The three values of the engine's `logMode` field.  `LogMode(true)` selects
detailed logging, `LogMode(false)` selects no logging; a handle that never had
`LogMode` called is in the default mode. -/
inductive LogModeValue where
  | defaultLogMode
  | noLogMode
  | detailedLogMode
  deriving DecidableEq, Repr

/-- A call of one of the pool setters of `*sql.DB`, with its argument. -/
inductive PoolCall where
  | setMaxIdleConns (n : Int)
  | setMaxOpenConns (n : Int)
  | setConnMaxLifetime (d : Int)
  deriving DecidableEq, Repr

/-- Pool settings of the `*sql.DB` owned by a handle (`inner.DB()`), with the
fields of `database/sql`: `maxIdleCount` (zero means the default of two idle
connections, negative means none), `maxOpen` (zero or less means unlimited) and
`maxLifetime` (a `time.Duration`, zero means connections are not closed for
age).  The last field, `calls`, is not a field of `sql.DB`: it is the history
of the setter calls the pool has received from its clients, oldest first, so
that a call stays visible when the pool normalises its argument away. -/
structure SqlDB where
  maxIdleCount : Int
  maxOpen : Int
  maxLifetime : Int
  calls : List PoolCall
  deriving DecidableEq, Repr

/-- Constant `defaultMaxIdleConns` of `database/sql`. -/
def defaultMaxIdleConns : Int := 2

/-- Method `maxIdleConnsLocked` of `database/sql`: the max-idle-connections
limit in force. -/
def SqlDB.maxIdleConnsLocked (db : SqlDB) : Int :=
  if db.maxIdleCount = 0 then defaultMaxIdleConns
  else if db.maxIdleCount < 0 then 0
  else db.maxIdleCount

/-- Body of `(*sql.DB).SetMaxIdleConns(n)`: `n <= 0` means no idle connections,
and the limit is reduced to a positive `maxOpen` that it exceeds. -/
def SqlDB.SetMaxIdleConns (db : SqlDB) (n : Int) : SqlDB :=
  let db1 := { db with maxIdleCount := if n > 0 then n else -1 }
  if db1.maxOpen > 0 ∧ db1.maxIdleConnsLocked > db1.maxOpen then
    { db1 with maxIdleCount := db1.maxOpen }
  else db1

/-- Body of `(*sql.DB).SetMaxOpenConns(n)`: a negative `n` is stored as zero, and
when the idle limit exceeds a positive new `maxOpen` the pool calls its own
`SetMaxIdleConns(n)`. -/
def SqlDB.SetMaxOpenConns (db : SqlDB) (n : Int) : SqlDB :=
  let db1 := { db with maxOpen := if n < 0 then 0 else n }
  if db1.maxOpen > 0 ∧ db1.maxIdleConnsLocked > db1.maxOpen then db1.SetMaxIdleConns n
  else db1

/-- Body of `(*sql.DB).SetConnMaxLifetime(d)`: a negative `d` is stored as
zero. -/
def SqlDB.SetConnMaxLifetime (db : SqlDB) (d : Int) : SqlDB :=
  { db with maxLifetime := if d < 0 then 0 else d }

/-- Record a client call in the history of the pool. -/
def SqlDB.logged (db : SqlDB) (c : PoolCall) : SqlDB :=
  { db with calls := db.calls ++ [c] }

/-- State of one `gorm.DB` handle.  `H` is the type of callback handlers
(`func(*Scope)`, the nil function included), `V` the type of the values kept in
the handle's key-value slots (`interface{}`).  `callbacks kind name` is the
handler that `Get(name)` of a processor of kind `kind` returns on this handle:
the registry as this handle observes it. -/
structure DB (H V : Type) where
  logMode : LogModeValue
  db : SqlDB
  callbacks : String → String → H
  values : String → Option V

/-- The heap of handles: the state of the handle stored at each address. -/
abbrev Heap (H V : Type) := Ptr → DB H V

/-- In-place update of the handle at address `s`. -/
def Heap.modify {H V : Type} (heap : Heap H V) (s : Ptr) (f : DB H V → DB H V) : Heap H V :=
  fun p => if p = s then f (heap p) else heap p

/-! ## Engine methods called by `orm.go` -/

/-- Engine method `(*gorm.DB).LogMode(enable)`. -/
def LogMode {H V : Type} (s : Ptr) (enable : Bool) (heap : Heap H V) : Heap H V :=
  heap.modify s fun d =>
    { d with logMode := if enable then LogModeValue.detailedLogMode else LogModeValue.noLogMode }

/-- Engine call `s.DB().SetMaxIdleConns(n)`, made by a client of the pool. -/
def SetMaxIdleConns {H V : Type} (s : Ptr) (n : Int) (heap : Heap H V) : Heap H V :=
  heap.modify s fun d =>
    { d with db := (d.db.SetMaxIdleConns n).logged (PoolCall.setMaxIdleConns n) }

/-- Engine call `s.DB().SetMaxOpenConns(n)`, made by a client of the pool. -/
def SetMaxOpenConns {H V : Type} (s : Ptr) (n : Int) (heap : Heap H V) : Heap H V :=
  heap.modify s fun d =>
    { d with db := (d.db.SetMaxOpenConns n).logged (PoolCall.setMaxOpenConns n) }

/-- Engine call `s.DB().SetConnMaxLifetime(d)`, made by a client of the pool. -/
def SetConnMaxLifetime {H V : Type} (s : Ptr) (t : Int) (heap : Heap H V) : Heap H V :=
  heap.modify s fun d =>
    { d with db := (d.db.SetConnMaxLifetime t).logged (PoolCall.setConnMaxLifetime t) }

/-- Engine method `(*gorm.DB).InstantSet(name, value)`: store `value` in slot `name` of the
handle itself. -/
def InstantSet {H V : Type} (s : Ptr) (name : String) (value : V) (heap : Heap H V) : Heap H V :=
  heap.modify s fun d =>
    { d with values := fun k => if k = name then some value else d.values k }

/-- Engine method `(*gorm.DB).Get(name)`: the value in slot `name`, if any. -/
def Get {H V : Type} (s : Ptr) (name : String) (heap : Heap H V) : Option V :=
  (heap s).values name

/-- Type `*gorm.Callback`: the callback registry of a handle. -/
structure Callback where
  parent : Ptr
  deriving DecidableEq, Repr

/-- Type `*gorm.CallbackProcessor`: a registry together with a processor kind. -/
structure CallbackProcessor where
  kind : String
  parent : Ptr
  deriving DecidableEq, Repr

/-- Engine method `(*gorm.DB).Callback()`. -/
def DB.Callback (s : Ptr) : Callback := ⟨s⟩

/-- Method value `c.Delete`. -/
def Callback.Delete (c : Callback) : Unit → CallbackProcessor := fun _ => ⟨"delete", c.parent⟩

/-- Method value `c.Update`. -/
def Callback.Update (c : Callback) : Unit → CallbackProcessor := fun _ => ⟨"update", c.parent⟩

/-- Method value `c.Create`. -/
def Callback.Create (c : Callback) : Unit → CallbackProcessor := fun _ => ⟨"create", c.parent⟩

/-- Method value `c.Query`. -/
def Callback.Query (c : Callback) : Unit → CallbackProcessor := fun _ => ⟨"query", c.parent⟩

/-- Method value `c.RowQuery`. -/
def Callback.RowQuery (c : Callback) : Unit → CallbackProcessor :=
  fun _ => ⟨"row_query", c.parent⟩

/-- Engine method `(*gorm.CallbackProcessor).Get(callbackName)`: the handler
registered under `callbackName` for the processor's kind. -/
def CallbackProcessor.Get {H V : Type} (cp : CallbackProcessor) (callbackName : String)
    (heap : Heap H V) : H :=
  (heap cp.parent).callbacks cp.kind callbackName

/-- Engine method `(*gorm.CallbackProcessor).Replace(callbackName, callback)`:
register `callback` under `callbackName` for the processor's kind, as the
processor's own handle observes it afterwards.  In the engine the registries of
the handles it opens start from one shared list of processors; the effect of a
`Replace` on what another handle observes is not described here, and no
statement in this file is about the registry of a handle other than the one a
processor belongs to. -/
def CallbackProcessor.Replace {H V : Type} (cp : CallbackProcessor) (callbackName : String)
    (callback : H) (heap : Heap H V) : Heap H V :=
  heap.modify cp.parent fun d =>
    { d with callbacks := fun k n =>
        if k = cp.kind ∧ n = callbackName then callback else d.callbacks k n }

/-- Outcome of the engine's `gorm.Open(dialect, dsn)`, a pair `(db, err)`:
either a live handle with a nil error, or a non-nil error together with
whatever handle (possibly nil) the engine returned alongside it. -/
inductive OpenResult (E : Type) where
  | opened (inner : Ptr)
  | failed (inner : Option Ptr) (err : E)

/-! ## Declarations of the package that `orm.go` uses -/

/-- Type `Interceptor`: `func(*DSN, string, *Config) func(next Handler) Handler`.
`P` is the type of `*Config` references, `D` the type of `*DSN` values. -/
abbrev Interceptor (P D H : Type) := D → String → P → H → H

/-- The fields of `Config` that `Open` reads.  The struct is declared in another
file of the package; `time.Duration` and `int` are signed integers. -/
structure Config (P D H : Type) where
  DSN : String
  Debug : Bool
  MaxIdleConns : Int
  MaxOpenConns : Int
  ConnMaxLifetime : Int
  interceptors : List (Interceptor P D H)
  dsnCfg : D

/-- What `Open` takes from its surroundings: the engine's `gorm.Open` (which may
allocate a handle, hence transforms the heap) and the value of
`xdebug.IsDevelopmentMode()`. -/
structure Env (E H V : Type) where
  gormOpen : String → String → Heap H V → OpenResult E × Heap H V
  IsDevelopmentMode : Bool

/-! ## `orm.go` -/

/-- Function `WithContext(ctx, db)`: `db.InstantSet("_context", ctx); return db`.
Returns the handle and the heap after the call. -/
def WithContext {H V : Type} (ctx : V) (db : Ptr) (heap : Heap H V) : Ptr × Heap H V :=
  (db, InstantSet db "_context" ctx heap)

/-- The closure `replace` of `Open`; the captured `options.dsnCfg` and `options`
are explicit parameters. -/
def Open.replace {P D H V : Type} (dsnCfg : D) (options : P)
    (processor : Unit → CallbackProcessor) (callbackName : String)
    (interceptors : List (Interceptor P D H)) (heap : Heap H V) : Heap H V :=
  let old : H := (processor ()).Get callbackName heap
  let handler := interceptors.foldl (fun handler inte => inte dsnCfg callbackName options handler) old
  (processor ()).Replace callbackName handler heap

/-- Function `Open(dialect, options)`.  Here `options` is the `*Config` reference handed to
the interceptors, `cfg` the `Config` it points to.  The result is the returned
pair `(*DB, error)` and the heap after the call. -/
def Open {P D E H V : Type} (env : Env E H V) (dialect : String) (options : P)
    (cfg : Config P D H) (heap : Heap H V) : (Option Ptr × Option E) × Heap H V :=
  match env.gormOpen dialect cfg.DSN heap with
  | (OpenResult.failed _ err, h0) => ((none, some err), h0)
  | (OpenResult.opened inner, h0) =>
    let h1 := LogMode inner cfg.Debug h0
    let h2 := SetMaxIdleConns inner cfg.MaxIdleConns h1
    let h3 := SetMaxOpenConns inner cfg.MaxOpenConns h2
    let h4 := if cfg.ConnMaxLifetime ≠ 0 then SetConnMaxLifetime inner cfg.ConnMaxLifetime h3 else h3
    let h5 := if env.IsDevelopmentMode then LogMode inner true h4 else h4
    let h6 := Open.replace cfg.dsnCfg options (DB.Callback inner).Delete "gorm:delete"
      cfg.interceptors h5
    let h7 := Open.replace cfg.dsnCfg options (DB.Callback inner).Update "gorm:update"
      cfg.interceptors h6
    let h8 := Open.replace cfg.dsnCfg options (DB.Callback inner).Create "gorm:create"
      cfg.interceptors h7
    let h9 := Open.replace cfg.dsnCfg options (DB.Callback inner).Query "gorm:query"
      cfg.interceptors h8
    let h10 := Open.replace cfg.dsnCfg options (DB.Callback inner).RowQuery "gorm:row_query"
      cfg.interceptors h9
    ((some inner, none), h10)

/-- The part of `Open` between the engine's open and the first `replace` call:
the heap once log mode, pool limits and lifetime have been applied to `inner`. -/
def Open.configured {P D E H V : Type} (env : Env E H V) (cfg : Config P D H) (inner : Ptr)
    (h0 : Heap H V) : Heap H V :=
  let h1 := LogMode inner cfg.Debug h0
  let h2 := SetMaxIdleConns inner cfg.MaxIdleConns h1
  let h3 := SetMaxOpenConns inner cfg.MaxOpenConns h2
  let h4 := if cfg.ConnMaxLifetime ≠ 0 then SetConnMaxLifetime inner cfg.ConnMaxLifetime h3 else h3
  if env.IsDevelopmentMode then LogMode inner true h4 else h4

/-! ## Vocabulary of the specification -/

/-- The chain in the words of the specification: `onion [W1, ..., Wn] h` is
`W1 (W2 (... (Wn h)))`, the first wrapper of the list outermost and `h`
innermost. -/
def onion {H : Type} : List (H → H) → H → H
  | [], h => h
  | W :: Ws, h => W (onion Ws h)

/-- A wrapper that runs `pre` on the way in and `post` on the way out of the
next handler, for handlers that transform a state. -/
def around {S : Type} (pre post : S → S) : (S → S) → (S → S) :=
  fun next s => post (next (pre s))

/-! ## Concrete data used to evaluate the definitions -/

/-- Events recorded by the trace handlers below. -/
inductive Event where
  | pre (tag : Nat)
  | run
  | post (tag : Nat)
  deriving DecidableEq, Repr

/-- A handler that records its effect by extending the trace of events. -/
abbrev TraceHandler := List Event → List Event

/-- The engine's own handler: records `run`. -/
def origHandler : TraceHandler := fun t => t ++ [Event.run]

/-- An interceptor with pre-logic and post-logic around the next handler. -/
def tagged (tag : Nat) : Interceptor Unit Unit TraceHandler :=
  fun _ _ _ next t => next (t ++ [Event.pre tag]) ++ [Event.post tag]

/-- A freshly opened handle: default log mode, the pool as `sql.Open` leaves it
(default idle limit, no open limit, no lifetime, no setter called yet),
`origHandler` registered everywhere, no slot set. -/
def freshDB : DB TraceHandler Nat :=
  { logMode := LogModeValue.defaultLogMode
    db := { maxIdleCount := 0, maxOpen := 0, maxLifetime := 0, calls := [] }
    callbacks := fun _ _ => origHandler
    values := fun _ => none }

/-- A heap in which every handle is fresh. -/
def freshHeap : Heap TraceHandler Nat := fun _ => freshDB

/-- An engine that opens handle `7` for dialect `mysql` and otherwise fails with
error `42`, handing back handle `7` alongside the error. -/
def demoEnv (dev : Bool) : Env Nat TraceHandler Nat :=
  { gormOpen := fun dialect _ heap =>
      if dialect = "mysql" then (OpenResult.opened 7, heap)
      else (OpenResult.failed (some 7) 42, heap)
    IsDevelopmentMode := dev }

/-- A configuration with two interceptors, tagged `1` and `2`. -/
def demoCfg : Config Unit Unit TraceHandler :=
  { DSN := "user@tcp(127.0.0.1:3306)/db"
    Debug := false
    MaxIdleConns := 10
    MaxOpenConns := 100
    ConnMaxLifetime := 300
    interceptors := [tagged 1, tagged 2]
    dsnCfg := () }

/-- The configuration `demoCfg` with an idle limit above the open limit. -/
def cappedIdleCfg : Config Unit Unit TraceHandler :=
  { demoCfg with MaxIdleConns := 10, MaxOpenConns := 5 }

/-- The configuration `demoCfg` with a negative connection lifetime. -/
def negLifetimeCfg : Config Unit Unit TraceHandler :=
  { demoCfg with ConnMaxLifetime := -1 }

/-- The configuration `demoCfg` without interceptors. -/
def emptyCfg : Config Unit Unit TraceHandler :=
  { demoCfg with interceptors := [] }

/-! ## Basic facts -/

theorem Open_failed {P D E H V : Type} (env : Env E H V) (dialect : String) (options : P)
    (cfg : Config P D H) (heap h0 : Heap H V) (inner : Option Ptr) (err : E)
    (hopen : env.gormOpen dialect cfg.DSN heap = (OpenResult.failed inner err, h0)) :
    Open env dialect options cfg heap = ((none, some err), h0) := by
  simp [Open, hopen]

theorem Open_opened_fst {P D E H V : Type} (env : Env E H V) (dialect : String) (options : P)
    (cfg : Config P D H) (heap h0 : Heap H V) (inner : Ptr)
    (hopen : env.gormOpen dialect cfg.DSN heap = (OpenResult.opened inner, h0)) :
    (Open env dialect options cfg heap).1 = (some inner, none) := by
  simp [Open, hopen]

/-- The replace step only touches the callback registry of the processor's
handle: log mode, pool settings and slots of every handle are as before. -/
theorem Open.replace_frame {P D H V : Type} (dsnCfg : D) (options : P)
    (processor : Unit → CallbackProcessor) (callbackName : String)
    (interceptors : List (Interceptor P D H)) (heap : Heap H V) (p : Ptr) :
    (Open.replace dsnCfg options processor callbackName interceptors heap p).logMode
        = (heap p).logMode ∧
      (Open.replace dsnCfg options processor callbackName interceptors heap p).db
        = (heap p).db ∧
      (Open.replace dsnCfg options processor callbackName interceptors heap p).values
        = (heap p).values := by
  unfold Open.replace CallbackProcessor.Replace Heap.modify
  by_cases hp : p = (processor ()).parent <;> simp [hp]

theorem Open_opened_snd {P D E H V : Type} (env : Env E H V) (dialect : String) (options : P)
    (cfg : Config P D H) (heap h0 : Heap H V) (inner : Ptr)
    (hopen : env.gormOpen dialect cfg.DSN heap = (OpenResult.opened inner, h0)) :
    (Open env dialect options cfg heap).2 =
      Open.replace cfg.dsnCfg options (DB.Callback inner).RowQuery "gorm:row_query" cfg.interceptors
        (Open.replace cfg.dsnCfg options (DB.Callback inner).Query "gorm:query" cfg.interceptors
          (Open.replace cfg.dsnCfg options (DB.Callback inner).Create "gorm:create" cfg.interceptors
            (Open.replace cfg.dsnCfg options (DB.Callback inner).Update "gorm:update"
              cfg.interceptors
              (Open.replace cfg.dsnCfg options (DB.Callback inner).Delete "gorm:delete"
                cfg.interceptors (Open.configured env cfg inner h0))))) := by
  simp [Open, hopen, Open.configured]

theorem SqlDB.logged_fields (db : SqlDB) (c : PoolCall) :
    (db.logged c).calls = db.calls ++ [c] ∧ (db.logged c).maxOpen = db.maxOpen ∧
      (db.logged c).maxLifetime = db.maxLifetime ∧
      (db.logged c).maxIdleConnsLocked = db.maxIdleConnsLocked :=
  ⟨rfl, rfl, rfl, rfl⟩

/-- What `SetMaxIdleConns(n)` does to the pool: the idle limit in force is `n`,
with `n <= 0` read as zero, capped by a positive `maxOpen`. -/
theorem SqlDB.SetMaxIdleConns_fields (db : SqlDB) (n : Int) :
    (db.SetMaxIdleConns n).calls = db.calls ∧ (db.SetMaxIdleConns n).maxOpen = db.maxOpen ∧
      (db.SetMaxIdleConns n).maxLifetime = db.maxLifetime ∧
      (db.SetMaxIdleConns n).maxIdleConnsLocked
        = (if 0 < db.maxOpen ∧ db.maxOpen < max n 0 then db.maxOpen else max n 0) := by
  rcases db with ⟨idle, opn, life, calls⟩
  simp only [SqlDB.SetMaxIdleConns, SqlDB.maxIdleConnsLocked, defaultMaxIdleConns]
  by_cases hn : 0 < n
  · have hmax : max n 0 = n := max_eq_left (le_of_lt hn)
    by_cases hc : 0 < opn ∧ opn < n
    · have h1 : ¬ opn = 0 := by omega
      have h2 : ¬ opn < 0 := by omega
      have h3 : ¬ n = 0 := by omega
      have h4 : ¬ n < 0 := by omega
      simp [hn, hc, hmax, h1, h2, h3, h4]
    · have h3 : ¬ n = 0 := by omega
      have h4 : ¬ n < 0 := by omega
      simp [hn, hc, hmax, h3, h4]
  · have hmax : max n 0 = 0 := max_eq_right (not_lt.mp hn)
    have hc : ¬ (0 < opn ∧ opn < 0) := by omega
    simp [hn, hmax, hc]

/-- What `SetMaxOpenConns(n)` does to the pool: `maxOpen` is `n` with negative
values stored as zero, and the idle limit in force is capped by a positive
`n`. -/
theorem SqlDB.SetMaxOpenConns_fields (db : SqlDB) (n : Int) :
    (db.SetMaxOpenConns n).calls = db.calls ∧ (db.SetMaxOpenConns n).maxOpen = max n 0 ∧
      (db.SetMaxOpenConns n).maxLifetime = db.maxLifetime ∧
      (db.SetMaxOpenConns n).maxIdleConnsLocked
        = (if 0 < n ∧ n < db.maxIdleConnsLocked then n else db.maxIdleConnsLocked) := by
  by_cases hs : 0 < n ∧ n < db.maxIdleConnsLocked
  · have hn0 : ¬ n < 0 := by omega
    have hmax : max n 0 = n := max_eq_left (by omega)
    have hidle : ({ db with maxOpen := n } : SqlDB).maxIdleConnsLocked = db.maxIdleConnsLocked :=
      rfl
    have hstep : db.SetMaxOpenConns n = ({ db with maxOpen := n } : SqlDB).SetMaxIdleConns n := by
      simp only [SqlDB.SetMaxOpenConns, hn0, if_false]
      rw [if_pos]
      rw [hidle]; exact ⟨hs.1, hs.2⟩
    have hf := SqlDB.SetMaxIdleConns_fields ({ db with maxOpen := n } : SqlDB) n
    rw [hstep, if_pos hs, hmax]
    refine ⟨hf.1, hf.2.1, hf.2.2.1, ?_⟩
    rw [hf.2.2.2, if_neg]
    · exact hmax
    · simp only [hmax]; omega
  · by_cases hn0 : n < 0
    · have hmax : max n 0 = 0 := max_eq_right (by omega)
      have hstep : db.SetMaxOpenConns n = ({ db with maxOpen := 0 } : SqlDB) := by
        simp [SqlDB.SetMaxOpenConns, hn0]
      rw [hstep, if_neg hs, hmax]
      exact ⟨rfl, rfl, rfl, rfl⟩
    · have hmax : max n 0 = n := max_eq_left (by omega)
      have hidle : ({ db with maxOpen := n } : SqlDB).maxIdleConnsLocked
          = db.maxIdleConnsLocked := rfl
      have hstep : db.SetMaxOpenConns n = ({ db with maxOpen := n } : SqlDB) := by
        simp only [SqlDB.SetMaxOpenConns, hn0, if_false]
        rw [if_neg]
        rw [hidle]
        intro h; exact hs ⟨h.1, h.2⟩
      rw [hstep, if_neg hs, hmax]
      exact ⟨rfl, rfl, rfl, rfl⟩

/-- What `SetConnMaxLifetime(d)` does to the pool: the lifetime is `d`, with a
negative `d` stored as zero; the limits are not touched. -/
theorem SqlDB.SetConnMaxLifetime_fields (db : SqlDB) (d : Int) :
    (db.SetConnMaxLifetime d).calls = db.calls ∧ (db.SetConnMaxLifetime d).maxOpen = db.maxOpen ∧
      (db.SetConnMaxLifetime d).maxLifetime = max d 0 ∧
      (db.SetConnMaxLifetime d).maxIdleConnsLocked = db.maxIdleConnsLocked := by
  refine ⟨rfl, rfl, ?_, rfl⟩
  by_cases hd : d < 0
  · simp [SqlDB.SetConnMaxLifetime, hd, max_eq_right (le_of_lt hd)]
  · simp [SqlDB.SetConnMaxLifetime, hd, max_eq_left (not_lt.mp hd)]

/-- The pool after the two limit setters, called by a client in the order of
`Open`: the history grows by the two calls, `maxOpen` is the requested limit
with negative values stored as zero, the idle limit in force is the requested
one with negative values read as zero, capped by a positive earlier `maxOpen`
and then by a positive new `maxOpen`; the lifetime is not touched. -/
theorem SqlDB.limits_set (db : SqlDB) (i o : Int) :
    ((((db.SetMaxIdleConns i).logged (PoolCall.setMaxIdleConns i)).SetMaxOpenConns o).logged
        (PoolCall.setMaxOpenConns o)).calls
        = db.calls ++ [PoolCall.setMaxIdleConns i, PoolCall.setMaxOpenConns o] ∧
      ((((db.SetMaxIdleConns i).logged (PoolCall.setMaxIdleConns i)).SetMaxOpenConns o).logged
        (PoolCall.setMaxOpenConns o)).maxOpen = max o 0 ∧
      ((((db.SetMaxIdleConns i).logged (PoolCall.setMaxIdleConns i)).SetMaxOpenConns o).logged
        (PoolCall.setMaxOpenConns o)).maxIdleConnsLocked
        = (if 0 < o ∧ o < (if 0 < db.maxOpen ∧ db.maxOpen < max i 0 then db.maxOpen else max i 0)
            then o
            else (if 0 < db.maxOpen ∧ db.maxOpen < max i 0 then db.maxOpen else max i 0)) ∧
      ((((db.SetMaxIdleConns i).logged (PoolCall.setMaxIdleConns i)).SetMaxOpenConns o).logged
        (PoolCall.setMaxOpenConns o)).maxLifetime = db.maxLifetime := by
  have hi := SqlDB.SetMaxIdleConns_fields db i
  have hl := SqlDB.logged_fields (db.SetMaxIdleConns i) (PoolCall.setMaxIdleConns i)
  have ho := SqlDB.SetMaxOpenConns_fields
    ((db.SetMaxIdleConns i).logged (PoolCall.setMaxIdleConns i)) o
  have hl2 := SqlDB.logged_fields
    (((db.SetMaxIdleConns i).logged (PoolCall.setMaxIdleConns i)).SetMaxOpenConns o)
    (PoolCall.setMaxOpenConns o)
  refine ⟨?_, ?_, ?_, ?_⟩
  · rw [hl2.1, ho.1, hl.1, hi.1]; simp
  · rw [hl2.2.1, ho.2.1]
  · rw [hl2.2.2.2, ho.2.2.2, hl.2.2.2, hi.2.2.2]
  · rw [hl2.2.2.1, ho.2.2.1, hl.2.2.1, hi.2.2.1]

theorem Open.configured_at {P D E H V : Type} (env : Env E H V) (cfg : Config P D H) (inner : Ptr)
    (h0 : Heap H V) :
    (Open.configured env cfg inner h0 inner).logMode
        = (if (cfg.Debug || env.IsDevelopmentMode) then LogModeValue.detailedLogMode
            else LogModeValue.noLogMode) ∧
      (Open.configured env cfg inner h0 inner).db
        = (if cfg.ConnMaxLifetime = 0 then
            ((((h0 inner).db.SetMaxIdleConns cfg.MaxIdleConns).logged
              (PoolCall.setMaxIdleConns cfg.MaxIdleConns)).SetMaxOpenConns cfg.MaxOpenConns).logged
              (PoolCall.setMaxOpenConns cfg.MaxOpenConns)
          else
            ((((((h0 inner).db.SetMaxIdleConns cfg.MaxIdleConns).logged
              (PoolCall.setMaxIdleConns cfg.MaxIdleConns)).SetMaxOpenConns cfg.MaxOpenConns).logged
              (PoolCall.setMaxOpenConns cfg.MaxOpenConns)).SetConnMaxLifetime
                cfg.ConnMaxLifetime).logged (PoolCall.setConnMaxLifetime cfg.ConnMaxLifetime)) ∧
      (Open.configured env cfg inner h0 inner).callbacks = (h0 inner).callbacks ∧
      (Open.configured env cfg inner h0 inner).values = (h0 inner).values := by
  unfold Open.configured LogMode SetMaxIdleConns SetMaxOpenConns SetConnMaxLifetime Heap.modify
  cases hd : cfg.Debug <;> cases hm : env.IsDevelopmentMode <;>
    by_cases hl : cfg.ConnMaxLifetime = 0 <;> simp [hl]

/-- Registry of the processor's handle after the replace step. -/
theorem Open.replace_callbacks {P D H V : Type} (dsnCfg : D) (options : P)
    (processor : Unit → CallbackProcessor) (callbackName : String)
    (interceptors : List (Interceptor P D H)) (heap : Heap H V) (k n : String) :
    (Open.replace dsnCfg options processor callbackName interceptors heap
        (processor ()).parent).callbacks k n
      = if k = (processor ()).kind ∧ n = callbackName then
          interceptors.foldl (fun handler inte => inte dsnCfg callbackName options handler)
            ((heap (processor ()).parent).callbacks (processor ()).kind callbackName)
        else (heap (processor ()).parent).callbacks k n := by
  simp [Open.replace, CallbackProcessor.Replace, CallbackProcessor.Get, Heap.modify]

/-- Registry of the opened handle after a successful `Open`. -/
theorem Open_opened_callbacks {P D E H V : Type} (env : Env E H V) (dialect : String)
    (options : P) (cfg : Config P D H) (heap h0 : Heap H V) (inner : Ptr)
    (hopen : env.gormOpen dialect cfg.DSN heap = (OpenResult.opened inner, h0))
    (k n : String) :
    ((Open env dialect options cfg heap).2 inner).callbacks k n =
      if (k = "delete" ∧ n = "gorm:delete") ∨ (k = "update" ∧ n = "gorm:update") ∨
          (k = "create" ∧ n = "gorm:create") ∨ (k = "query" ∧ n = "gorm:query") ∨
          (k = "row_query" ∧ n = "gorm:row_query") then
        cfg.interceptors.foldl (fun handler inte => inte cfg.dsnCfg n options handler)
          ((h0 inner).callbacks k n)
      else (h0 inner).callbacks k n := by
  rw [Open_opened_snd env dialect options cfg heap h0 inner hopen]
  have e1 := Open.replace_callbacks (V := V) cfg.dsnCfg options (DB.Callback inner).RowQuery
    "gorm:row_query" cfg.interceptors
  have e2 := Open.replace_callbacks (V := V) cfg.dsnCfg options (DB.Callback inner).Query
    "gorm:query" cfg.interceptors
  have e3 := Open.replace_callbacks (V := V) cfg.dsnCfg options (DB.Callback inner).Create
    "gorm:create" cfg.interceptors
  have e4 := Open.replace_callbacks (V := V) cfg.dsnCfg options (DB.Callback inner).Update
    "gorm:update" cfg.interceptors
  have e5 := Open.replace_callbacks (V := V) cfg.dsnCfg options (DB.Callback inner).Delete
    "gorm:delete" cfg.interceptors
  simp only [DB.Callback, Callback.RowQuery, Callback.Query, Callback.Create, Callback.Update,
    Callback.Delete] at e1 e2 e3 e4 e5 ⊢
  have hc := (Open.configured_at env cfg inner h0).2.2.1
  simp only [e1, e2, e3, e4, e5, hc]
  by_cases h1 : k = "row_query" ∧ n = "gorm:row_query"
  · obtain ⟨rfl, rfl⟩ := h1; simp
  by_cases h2 : k = "query" ∧ n = "gorm:query"
  · obtain ⟨rfl, rfl⟩ := h2; simp
  by_cases h3 : k = "create" ∧ n = "gorm:create"
  · obtain ⟨rfl, rfl⟩ := h3; simp
  by_cases h4 : k = "update" ∧ n = "gorm:update"
  · obtain ⟨rfl, rfl⟩ := h4; simp
  by_cases h5 : k = "delete" ∧ n = "gorm:delete"
  · obtain ⟨rfl, rfl⟩ := h5; simp
  simp [h1, h2, h3, h4, h5]

/-- Log mode, pool settings and slots of the opened handle are those set before
the interceptors are installed. -/
theorem Open_opened_frame {P D E H V : Type} (env : Env E H V) (dialect : String)
    (options : P) (cfg : Config P D H) (heap h0 : Heap H V) (inner : Ptr)
    (hopen : env.gormOpen dialect cfg.DSN heap = (OpenResult.opened inner, h0)) :
    ((Open env dialect options cfg heap).2 inner).logMode
        = (Open.configured env cfg inner h0 inner).logMode ∧
      ((Open env dialect options cfg heap).2 inner).db
        = (Open.configured env cfg inner h0 inner).db ∧
      ((Open env dialect options cfg heap).2 inner).values
        = (Open.configured env cfg inner h0 inner).values := by
  rw [Open_opened_snd env dialect options cfg heap h0 inner hopen]
  refine ⟨?_, ?_, ?_⟩
  · rw [(Open.replace_frame _ _ _ _ _ _ _).1, (Open.replace_frame _ _ _ _ _ _ _).1,
      (Open.replace_frame _ _ _ _ _ _ _).1, (Open.replace_frame _ _ _ _ _ _ _).1,
      (Open.replace_frame _ _ _ _ _ _ _).1]
  · rw [(Open.replace_frame _ _ _ _ _ _ _).2.1, (Open.replace_frame _ _ _ _ _ _ _).2.1,
      (Open.replace_frame _ _ _ _ _ _ _).2.1, (Open.replace_frame _ _ _ _ _ _ _).2.1,
      (Open.replace_frame _ _ _ _ _ _ _).2.1]
  · rw [(Open.replace_frame _ _ _ _ _ _ _).2.2, (Open.replace_frame _ _ _ _ _ _ _).2.2,
      (Open.replace_frame _ _ _ _ _ _ _).2.2, (Open.replace_frame _ _ _ _ _ _ _).2.2,
      (Open.replace_frame _ _ _ _ _ _ _).2.2]

/-- The pool of the opened handle after a successful `Open`. -/
theorem Open_opened_pool {P D E H V : Type} (env : Env E H V) (dialect : String)
    (options : P) (cfg : Config P D H) (heap h0 : Heap H V) (inner : Ptr)
    (hopen : env.gormOpen dialect cfg.DSN heap = (OpenResult.opened inner, h0)) :
    ((Open env dialect options cfg heap).2 inner).db.calls
        = (h0 inner).db.calls
          ++ [PoolCall.setMaxIdleConns cfg.MaxIdleConns, PoolCall.setMaxOpenConns cfg.MaxOpenConns]
          ++ (if cfg.ConnMaxLifetime = 0 then []
              else [PoolCall.setConnMaxLifetime cfg.ConnMaxLifetime]) ∧
      ((Open env dialect options cfg heap).2 inner).db.maxOpen = max cfg.MaxOpenConns 0 ∧
      ((Open env dialect options cfg heap).2 inner).db.maxIdleConnsLocked
        = (if 0 < cfg.MaxOpenConns ∧ cfg.MaxOpenConns <
              (if 0 < (h0 inner).db.maxOpen ∧ (h0 inner).db.maxOpen < max cfg.MaxIdleConns 0
                then (h0 inner).db.maxOpen else max cfg.MaxIdleConns 0)
            then cfg.MaxOpenConns
            else (if 0 < (h0 inner).db.maxOpen ∧ (h0 inner).db.maxOpen < max cfg.MaxIdleConns 0
                then (h0 inner).db.maxOpen else max cfg.MaxIdleConns 0)) ∧
      ((Open env dialect options cfg heap).2 inner).db.maxLifetime
        = (if cfg.ConnMaxLifetime = 0 then (h0 inner).db.maxLifetime
            else max cfg.ConnMaxLifetime 0) := by
  rw [(Open_opened_frame env dialect options cfg heap h0 inner hopen).2.1,
    (Open.configured_at env cfg inner h0).2.1]
  have hs := SqlDB.limits_set (h0 inner).db cfg.MaxIdleConns cfg.MaxOpenConns
  by_cases hl : cfg.ConnMaxLifetime = 0
  · simp only [hl, if_true, List.append_nil]
    exact hs
  · simp only [hl, if_false]
    have hlog := SqlDB.logged_fields
      ((((((h0 inner).db.SetMaxIdleConns cfg.MaxIdleConns).logged
        (PoolCall.setMaxIdleConns cfg.MaxIdleConns)).SetMaxOpenConns cfg.MaxOpenConns).logged
        (PoolCall.setMaxOpenConns cfg.MaxOpenConns)).SetConnMaxLifetime cfg.ConnMaxLifetime)
      (PoolCall.setConnMaxLifetime cfg.ConnMaxLifetime)
    have hlife := SqlDB.SetConnMaxLifetime_fields
      (((((h0 inner).db.SetMaxIdleConns cfg.MaxIdleConns).logged
        (PoolCall.setMaxIdleConns cfg.MaxIdleConns)).SetMaxOpenConns cfg.MaxOpenConns).logged
        (PoolCall.setMaxOpenConns cfg.MaxOpenConns)) cfg.ConnMaxLifetime
    refine ⟨?_, ?_, ?_, ?_⟩
    · rw [hlog.1, hlife.1, hs.1]
    · rw [hlog.2.1, hlife.2.1, hs.2.1]
    · rw [hlog.2.2.2, hlife.2.2.2, hs.2.2.1]
    · rw [hlog.2.2.1, hlife.2.2.1]

/-- With no interceptors the replace step registers the handler it fetched: the
callback registry of the processor's handle is as before. -/
theorem Open.replace_nil_callbacks {P D H V : Type} (dsnCfg : D) (options : P)
    (processor : Unit → CallbackProcessor) (callbackName : String) (heap : Heap H V) :
    (Open.replace dsnCfg options processor callbackName ([] : List (Interceptor P D H)) heap
        (processor ()).parent).callbacks
      = (heap (processor ()).parent).callbacks := by
  funext k n
  rw [Open.replace_callbacks]
  by_cases h : k = (processor ()).kind ∧ n = callbackName
  · rw [if_pos h, h.1, h.2]; rfl
  · rw [if_neg h]

/-- The handler the replace step registers, read back through the processor. -/
theorem Open.replace_Get {P D H V : Type} (dsnCfg : D) (options : P)
    (processor : Unit → CallbackProcessor) (callbackName : String)
    (interceptors : List (Interceptor P D H)) (heap : Heap H V) :
    (processor ()).Get callbackName
        (Open.replace dsnCfg options processor callbackName interceptors heap)
      = interceptors.foldl (fun handler inte => inte dsnCfg callbackName options handler)
          ((processor ()).Get callbackName heap) := by
  simp [Open.replace, CallbackProcessor.Replace, CallbackProcessor.Get, Heap.modify]

theorem foldl_eq_onion_reverse {H : Type} (ws : List (H → H)) (h : H) :
    ws.foldl (fun handler W => W handler) h = onion ws.reverse h := by
  induction ws using List.reverseRecOn with
  | nil => rfl
  | append_singleton ws W ih =>
    rw [List.foldl_append, List.reverse_append]
    simp [onion, ih]

/-! ## Claims about `Open`: errors, pool limits, lifetime, log mode -/

/-- C4: `Open` returns an error exactly when the engine's open fails; then the
returned handle is nil, the error is the engine's error itself, and the heap is
the one the engine left (no logging, pool, lifetime or interceptor step ran);
when the engine's open succeeds, `Open` returns the engine's handle and a nil
error. -/
theorem C4_open_error_passthrough {P D E H V : Type} (env : Env E H V) (dialect : String)
    (options : P) (cfg : Config P D H) (heap : Heap H V) :
    ((Open env dialect options cfg heap).1.2 ≠ none ↔
        ∃ inner err, (env.gormOpen dialect cfg.DSN heap).1 = OpenResult.failed inner err) ∧
      (∀ inner err, (env.gormOpen dialect cfg.DSN heap).1 = OpenResult.failed inner err →
        Open env dialect options cfg heap
          = ((none, some err), (env.gormOpen dialect cfg.DSN heap).2)) ∧
      (∀ inner, (env.gormOpen dialect cfg.DSN heap).1 = OpenResult.opened inner →
        (Open env dialect options cfg heap).1 = (some inner, none)) := by
  rcases hr : env.gormOpen dialect cfg.DSN heap with ⟨r, h0⟩
  cases r with
  | opened inner =>
    have h1 := Open_opened_fst env dialect options cfg heap h0 inner hr
    refine ⟨?_, ?_, ?_⟩
    · rw [h1]; simp
    · intro i e he; simp at he
    · intro i hi
      simp only [OpenResult.opened.injEq] at hi
      rw [h1, hi]
  | failed i err =>
    have h1 := Open_failed env dialect options cfg heap h0 i err hr
    refine ⟨?_, ?_, ?_⟩
    · rw [h1]; simp
    · intro i2 e2 he
      simp only [OpenResult.failed.injEq] at he
      rw [h1, he.2]
    · intro i2 hi; simp at hi

/-- C5 (amended): after a successful `Open` the pool of the returned handle has
received `SetMaxIdleConns(options.MaxIdleConns)` and then
`SetMaxOpenConns(options.MaxOpenConns)`, unconditionally.  Its max-open limit
is `MaxOpenConns` with a negative value stored as zero; its max-idle limit is
`MaxIdleConns` with a negative value read as zero, capped by a positive max-open
limit (the one the engine's handle came with, then the configured one).  On a
handle the engine opened without an open limit, both limits are the configured
values whenever `0 ≤ MaxIdleConns`, `0 ≤ MaxOpenConns` and `MaxOpenConns` is
zero or at least `MaxIdleConns`. -/
theorem C5_open_pool_limits_normalised {P D E H V : Type} (env : Env E H V) (dialect : String)
    (options : P) (cfg : Config P D H) (heap h0 : Heap H V) (inner : Ptr)
    (hopen : env.gormOpen dialect cfg.DSN heap = (OpenResult.opened inner, h0)) :
    (Open env dialect options cfg heap).1 = (some inner, none) ∧
      (∃ rest, ((Open env dialect options cfg heap).2 inner).db.calls
        = (h0 inner).db.calls
          ++ [PoolCall.setMaxIdleConns cfg.MaxIdleConns, PoolCall.setMaxOpenConns cfg.MaxOpenConns]
          ++ rest) ∧
      ((Open env dialect options cfg heap).2 inner).db.maxOpen = max cfg.MaxOpenConns 0 ∧
      ((Open env dialect options cfg heap).2 inner).db.maxIdleConnsLocked
        = (if 0 < cfg.MaxOpenConns ∧ cfg.MaxOpenConns <
              (if 0 < (h0 inner).db.maxOpen ∧ (h0 inner).db.maxOpen < max cfg.MaxIdleConns 0
                then (h0 inner).db.maxOpen else max cfg.MaxIdleConns 0)
            then cfg.MaxOpenConns
            else (if 0 < (h0 inner).db.maxOpen ∧ (h0 inner).db.maxOpen < max cfg.MaxIdleConns 0
                then (h0 inner).db.maxOpen else max cfg.MaxIdleConns 0)) ∧
      ((h0 inner).db.maxOpen ≤ 0 → 0 ≤ cfg.MaxIdleConns → 0 ≤ cfg.MaxOpenConns →
        (cfg.MaxOpenConns = 0 ∨ cfg.MaxIdleConns ≤ cfg.MaxOpenConns) →
        ((Open env dialect options cfg heap).2 inner).db.maxIdleConnsLocked = cfg.MaxIdleConns ∧
          ((Open env dialect options cfg heap).2 inner).db.maxOpen = cfg.MaxOpenConns) := by
  have hp := Open_opened_pool env dialect options cfg heap h0 inner hopen
  refine ⟨Open_opened_fst env dialect options cfg heap h0 inner hopen, ⟨_, hp.1⟩, hp.2.1,
    hp.2.2.1, ?_⟩
  intro hfresh hi ho hio
  rw [hp.2.2.1, hp.2.1]
  have h1 : ¬ (0 < (h0 inner).db.maxOpen ∧ (h0 inner).db.maxOpen < max cfg.MaxIdleConns 0) := by
    intro h; omega
  have h2 : max cfg.MaxIdleConns 0 = cfg.MaxIdleConns := max_eq_left hi
  have h3 : max cfg.MaxOpenConns 0 = cfg.MaxOpenConns := max_eq_left ho
  have h4 : ¬ (0 < cfg.MaxOpenConns ∧ cfg.MaxOpenConns < cfg.MaxIdleConns) := by
    intro h; omega
  rw [if_neg h1, h2, if_neg h4, h3]
  exact ⟨rfl, rfl⟩

/-- C6 (amended): after a successful `Open` the pool of the returned handle has
received `SetConnMaxLifetime` exactly when `options.ConnMaxLifetime` is
non-zero, with that value as argument, after the two limit setters.  A positive
value is the lifetime of the handle, a negative value is stored by the pool as
zero, and with zero the lifetime the engine's handle came with is kept. -/
theorem C6_open_lifetime_setter_nonzero {P D E H V : Type} (env : Env E H V)
    (dialect : String) (options : P) (cfg : Config P D H) (heap h0 : Heap H V) (inner : Ptr)
    (hopen : env.gormOpen dialect cfg.DSN heap = (OpenResult.opened inner, h0)) :
    ((Open env dialect options cfg heap).2 inner).db.calls
        = (h0 inner).db.calls
          ++ [PoolCall.setMaxIdleConns cfg.MaxIdleConns, PoolCall.setMaxOpenConns cfg.MaxOpenConns]
          ++ (if cfg.ConnMaxLifetime = 0 then []
              else [PoolCall.setConnMaxLifetime cfg.ConnMaxLifetime]) ∧
      (∀ d : Int,
        PoolCall.setConnMaxLifetime d ∈
            (((Open env dialect options cfg heap).2 inner).db.calls).drop
              (h0 inner).db.calls.length
          ↔ cfg.ConnMaxLifetime ≠ 0 ∧ d = cfg.ConnMaxLifetime) ∧
      (0 < cfg.ConnMaxLifetime →
        ((Open env dialect options cfg heap).2 inner).db.maxLifetime = cfg.ConnMaxLifetime) ∧
      (cfg.ConnMaxLifetime < 0 →
        ((Open env dialect options cfg heap).2 inner).db.maxLifetime = 0) ∧
      (cfg.ConnMaxLifetime = 0 →
        ((Open env dialect options cfg heap).2 inner).db.maxLifetime
          = (h0 inner).db.maxLifetime) := by
  have hp := Open_opened_pool env dialect options cfg heap h0 inner hopen
  refine ⟨hp.1, ?_, ?_, ?_, ?_⟩
  · intro d
    rw [hp.1, List.append_assoc, List.drop_left]
    by_cases hl : cfg.ConnMaxLifetime = 0
    · simp [hl]
    · simp [hl]
  · intro hl
    have hne : ¬ cfg.ConnMaxLifetime = 0 := by omega
    rw [hp.2.2.2, if_neg hne]
    exact max_eq_left (le_of_lt hl)
  · intro hl
    have hne : ¬ cfg.ConnMaxLifetime = 0 := by omega
    rw [hp.2.2.2, if_neg hne]
    exact max_eq_right (le_of_lt hl)
  · intro hl
    rw [hp.2.2.2, if_pos hl]

/-- C7: after a successful `Open` the log mode of the returned handle is the one
`LogMode(options.Debug || development mode)` selects: detailed logging when
development mode is on, whatever the debug flag, and the mode of
`LogMode(options.Debug)` when it is off. -/
theorem C7_open_log_mode {P D E H V : Type} (env : Env E H V) (dialect : String)
    (options : P) (cfg : Config P D H) (heap h0 : Heap H V) (inner : Ptr)
    (hopen : env.gormOpen dialect cfg.DSN heap = (OpenResult.opened inner, h0)) :
    ((Open env dialect options cfg heap).2 inner).logMode
        = (LogMode inner (cfg.Debug || env.IsDevelopmentMode) h0 inner).logMode ∧
      ((Open env dialect options cfg heap).2 inner).logMode
        = (if (cfg.Debug || env.IsDevelopmentMode) then LogModeValue.detailedLogMode
            else LogModeValue.noLogMode) ∧
      (env.IsDevelopmentMode = true →
        ((Open env dialect options cfg heap).2 inner).logMode = LogModeValue.detailedLogMode) ∧
      (env.IsDevelopmentMode = false →
        ((Open env dialect options cfg heap).2 inner).logMode
          = (LogMode inner cfg.Debug h0 inner).logMode) := by
  rw [(Open_opened_frame env dialect options cfg heap h0 inner hopen).1,
    (Open.configured_at env cfg inner h0).1]
  refine ⟨?_, rfl, ?_, ?_⟩
  · simp [LogMode, Heap.modify]
  · intro hd; simp [hd]
  · intro hd; simp [hd, LogMode, Heap.modify]

theorem C4_open_error_passthrough_witness :
    ((demoEnv false).gormOpen "sqlite3" demoCfg.DSN freshHeap).1
        = OpenResult.failed (some 7) 42 ∧
      Open (demoEnv false) "sqlite3" () demoCfg freshHeap
        = ((none, some 42), ((demoEnv false).gormOpen "sqlite3" demoCfg.DSN freshHeap).2) ∧
      ((demoEnv false).gormOpen "mysql" demoCfg.DSN freshHeap).1 = OpenResult.opened 7 ∧
      (Open (demoEnv false) "mysql" () demoCfg freshHeap).1 = (some 7, none) :=
  ⟨by simp [demoEnv],
    (C4_open_error_passthrough (demoEnv false) "sqlite3" () demoCfg freshHeap).2.1 (some 7) 42
      (by simp [demoEnv]),
    by simp [demoEnv],
    (C4_open_error_passthrough (demoEnv false) "mysql" () demoCfg freshHeap).2.2 7
      (by simp [demoEnv])⟩

/-- C5 as stated fails: with `MaxIdleConns = 10` and `MaxOpenConns = 5` the
returned handle has a max-idle limit of `5`, not `10`. -/
theorem C5_counterexample :
    cappedIdleCfg.MaxIdleConns = 10 ∧ cappedIdleCfg.MaxOpenConns = 5 ∧
      (Open (demoEnv false) "mysql" () cappedIdleCfg freshHeap).1 = (some 7, none) ∧
      ((Open (demoEnv false) "mysql" () cappedIdleCfg freshHeap).2 7).db.maxIdleConnsLocked = 5 ∧
      ((Open (demoEnv false) "mysql" () cappedIdleCfg freshHeap).2 7).db.maxIdleConnsLocked
        ≠ cappedIdleCfg.MaxIdleConns := by
  have hopen : (demoEnv false).gormOpen "mysql" cappedIdleCfg.DSN freshHeap
      = (OpenResult.opened 7, freshHeap) := by simp [demoEnv]
  have h5 : ((Open (demoEnv false) "mysql" () cappedIdleCfg freshHeap).2 7).db.maxIdleConnsLocked
      = 5 := by
    rw [(Open_opened_pool _ _ _ _ _ _ _ hopen).2.2.1]
    simp [cappedIdleCfg, demoCfg, freshHeap, freshDB]
  refine ⟨rfl, rfl, Open_opened_fst _ _ _ _ _ _ _ hopen, h5, ?_⟩
  rw [h5]
  decide

theorem C5_open_pool_limits_normalised_witness :
    (demoEnv false).gormOpen "mysql" demoCfg.DSN freshHeap = (OpenResult.opened 7, freshHeap) ∧
      (freshHeap 7).db.maxOpen ≤ 0 ∧ (0 : Int) ≤ demoCfg.MaxIdleConns ∧
      (0 : Int) ≤ demoCfg.MaxOpenConns ∧ demoCfg.MaxIdleConns ≤ demoCfg.MaxOpenConns ∧
      ((Open (demoEnv false) "mysql" () demoCfg freshHeap).2 7).db.maxIdleConnsLocked = 10 ∧
      ((Open (demoEnv false) "mysql" () demoCfg freshHeap).2 7).db.maxOpen = 100 :=
  ⟨by simp [demoEnv], by decide, by decide, by decide, by decide,
    (C5_open_pool_limits_normalised (demoEnv false) "mysql" () demoCfg freshHeap freshHeap 7
      (by simp [demoEnv])).2.2.2.2 (by decide) (by decide) (by decide) (Or.inr (by decide))⟩

/-- C6 as stated fails: with `ConnMaxLifetime = -1`, which is not positive,
`Open` does call the lifetime setter, with argument `-1`; the pool stores the
lifetime as `0`. -/
theorem C6_counterexample :
    ¬ ((0 : Int) < negLifetimeCfg.ConnMaxLifetime) ∧
      (Open (demoEnv false) "mysql" () negLifetimeCfg freshHeap).1 = (some 7, none) ∧
      (freshHeap 7).db.calls = [] ∧
      ((Open (demoEnv false) "mysql" () negLifetimeCfg freshHeap).2 7).db.calls
        = [PoolCall.setMaxIdleConns 10, PoolCall.setMaxOpenConns 100,
            PoolCall.setConnMaxLifetime (-1)] ∧
      ((Open (demoEnv false) "mysql" () negLifetimeCfg freshHeap).2 7).db.maxLifetime = 0 := by
  have hopen : (demoEnv false).gormOpen "mysql" negLifetimeCfg.DSN freshHeap
      = (OpenResult.opened 7, freshHeap) := by simp [demoEnv]
  refine ⟨by decide, Open_opened_fst _ _ _ _ _ _ _ hopen, rfl, ?_, ?_⟩
  · rw [(Open_opened_pool _ _ _ _ _ _ _ hopen).1]
    simp [negLifetimeCfg, demoCfg, freshHeap, freshDB]
  · rw [(Open_opened_pool _ _ _ _ _ _ _ hopen).2.2.2]
    simp [negLifetimeCfg, demoCfg]

theorem C6_open_lifetime_setter_nonzero_witness :
    (demoEnv false).gormOpen "mysql" demoCfg.DSN freshHeap = (OpenResult.opened 7, freshHeap) ∧
      (0 : Int) < demoCfg.ConnMaxLifetime ∧
      ((Open (demoEnv false) "mysql" () demoCfg freshHeap).2 7).db.maxLifetime = 300 :=
  ⟨by simp [demoEnv], by decide,
    (C6_open_lifetime_setter_nonzero (demoEnv false) "mysql" () demoCfg freshHeap freshHeap 7
      (by simp [demoEnv])).2.2.1 (by decide)⟩

theorem C7_open_log_mode_witness :
    (demoEnv true).gormOpen "mysql" demoCfg.DSN freshHeap = (OpenResult.opened 7, freshHeap) ∧
      demoCfg.Debug = false ∧ (demoEnv true).IsDevelopmentMode = true ∧
      ((Open (demoEnv true) "mysql" () demoCfg freshHeap).2 7).logMode
        = LogModeValue.detailedLogMode :=
  ⟨by simp [demoEnv], rfl, rfl,
    (C7_open_log_mode (demoEnv true) "mysql" () demoCfg freshHeap freshHeap 7
      (by simp [demoEnv])).2.2.1 rfl⟩

/-! ## Claims about the replace step -/

/-- C1 as stated fails: with interceptors `[tagged 1, tagged 2]` the registered
handler runs the pre-logic of the second interceptor first and the post-logic of
the second interceptor last, and it is not `A (B H)`. -/
theorem C1_counterexample :
    ((DB.Callback 7).Delete ()).Get "gorm:delete"
        (Open.replace () () (DB.Callback 7).Delete "gorm:delete" [tagged 1, tagged 2] freshHeap)
        []
      = [Event.pre 2, Event.pre 1, Event.run, Event.post 1, Event.post 2] ∧
    tagged 1 () "gorm:delete" ()
        (tagged 2 () "gorm:delete" () (((DB.Callback 7).Delete ()).Get "gorm:delete" freshHeap))
        []
      = [Event.pre 1, Event.pre 2, Event.run, Event.post 2, Event.post 1] ∧
    ((DB.Callback 7).Delete ()).Get "gorm:delete"
        (Open.replace () () (DB.Callback 7).Delete "gorm:delete" [tagged 1, tagged 2] freshHeap)
      ≠ tagged 1 () "gorm:delete" ()
          (tagged 2 () "gorm:delete" ()
            (((DB.Callback 7).Delete ()).Get "gorm:delete" freshHeap)) := by
  have h1 : ((DB.Callback 7).Delete ()).Get "gorm:delete"
        (Open.replace () () (DB.Callback 7).Delete "gorm:delete" [tagged 1, tagged 2] freshHeap)
        []
      = [Event.pre 2, Event.pre 1, Event.run, Event.post 1, Event.post 2] := by
    rw [Open.replace_Get]
    simp [tagged, CallbackProcessor.Get, freshHeap, freshDB, origHandler]
  have h2 : tagged 1 () "gorm:delete" ()
        (tagged 2 () "gorm:delete" () (((DB.Callback 7).Delete ()).Get "gorm:delete" freshHeap))
        []
      = [Event.pre 1, Event.pre 2, Event.run, Event.post 2, Event.post 1] := by
    simp [tagged, CallbackProcessor.Get, freshHeap, freshDB, origHandler]
  refine ⟨h1, h2, ?_⟩
  intro he
  have h3 := congrFun he []
  rw [h1, h2] at h3
  exact absurd h3 (by decide)

/-- C1 (amended): for interceptors `[A, B]` the replace step registers
`B (A H)`: the last configured interceptor is outermost and the first wraps the
original handler `H` directly.  When invoked, the registered handler runs
B's pre-logic, A's pre-logic, `H`, A's post-logic, B's post-logic. -/
theorem C1_replace_two_last_outermost {P D H V S : Type} (dsnCfg : D) (options : P)
    (processor : Unit → CallbackProcessor) (callbackName : String) :
    (∀ (A B : Interceptor P D H) (heap : Heap H V),
      (processor ()).Get callbackName
          (Open.replace dsnCfg options processor callbackName [A, B] heap)
        = B dsnCfg callbackName options
            (A dsnCfg callbackName options ((processor ()).Get callbackName heap))) ∧
    (∀ (preA postA preB postB : S → S) (heap : Heap (S → S) V) (s : S),
      (processor ()).Get callbackName
          (Open.replace dsnCfg options processor callbackName
            [fun _ _ _ => around preA postA, fun _ _ _ => around preB postB] heap) s
        = postB (postA ((processor ()).Get callbackName heap (preA (preB s))))) := by
  constructor
  · intro A B heap
    rw [Open.replace_Get]; rfl
  · intro preA postA preB postB heap s
    rw [Open.replace_Get]; rfl

/-- C10: the replace step is a left fold.  With `Wk = Ik(options.dsnCfg,
callbackName, options)`, one wrapper per configured factory in list order, the
registered handler is `Wn (... (W2 (W1 H)))`: the chain of the reversed wrapper
list with its first element outermost.  Appending an interceptor to the list
wraps it around the chain of the others (the last one is outermost), and the
first one is applied to `H` itself. -/
theorem C10_replace_left_fold {P D H V : Type} (dsnCfg : D) (options : P)
    (processor : Unit → CallbackProcessor) (callbackName : String) (heap : Heap H V) :
    (∀ interceptors : List (Interceptor P D H),
      (processor ()).Get callbackName
          (Open.replace dsnCfg options processor callbackName interceptors heap)
        = onion ((interceptors.map fun inte => inte dsnCfg callbackName options).reverse)
            ((processor ()).Get callbackName heap)) ∧
    (∀ (interceptors : List (Interceptor P D H)) (last : Interceptor P D H),
      (processor ()).Get callbackName
          (Open.replace dsnCfg options processor callbackName (interceptors ++ [last]) heap)
        = last dsnCfg callbackName options
            ((processor ()).Get callbackName
              (Open.replace dsnCfg options processor callbackName interceptors heap))) ∧
    (∀ (first : Interceptor P D H) (interceptors : List (Interceptor P D H)),
      (processor ()).Get callbackName
          (Open.replace dsnCfg options processor callbackName (first :: interceptors) heap)
        = onion ((interceptors.map fun inte => inte dsnCfg callbackName options).reverse)
            (first dsnCfg callbackName options ((processor ()).Get callbackName heap))) ∧
    (∀ I1 I2 I3 : Interceptor P D H,
      (processor ()).Get callbackName
          (Open.replace dsnCfg options processor callbackName [I1, I2, I3] heap)
        = I3 dsnCfg callbackName options
            (I2 dsnCfg callbackName options
              (I1 dsnCfg callbackName options ((processor ()).Get callbackName heap)))) := by
  have key : ∀ (interceptors : List (Interceptor P D H)) (h : H),
      interceptors.foldl (fun handler inte => inte dsnCfg callbackName options handler) h
        = onion ((interceptors.map fun inte => inte dsnCfg callbackName options).reverse) h := by
    intro interceptors h
    rw [← foldl_eq_onion_reverse, List.foldl_map]
  refine ⟨?_, ?_, ?_, ?_⟩
  · intro interceptors
    rw [Open.replace_Get, key]
  · intro interceptors last
    rw [Open.replace_Get, Open.replace_Get, List.foldl_append]; rfl
  · intro first interceptors
    rw [Open.replace_Get, List.foldl_cons, key]
  · intro I1 I2 I3
    rw [Open.replace_Get]; rfl

/-- C2: after a successful `Open`, each of the five hooks of the opened handle
holds the chain built, from the handler the engine had registered there, by
folding the one configured interceptor list with every factory called on
`(options.dsnCfg, the hook's callback name, options)`; every registration of
the handle under another kind or name is unchanged. -/
theorem C2_open_installs_five_hooks {P D E H V : Type} (env : Env E H V) (dialect : String)
    (options : P) (cfg : Config P D H) (heap h0 : Heap H V) (inner : Ptr)
    (hopen : env.gormOpen dialect cfg.DSN heap = (OpenResult.opened inner, h0)) :
    ((Open env dialect options cfg heap).2 inner).callbacks "delete" "gorm:delete"
        = cfg.interceptors.foldl
            (fun handler inte => inte cfg.dsnCfg "gorm:delete" options handler)
            ((h0 inner).callbacks "delete" "gorm:delete") ∧
      ((Open env dialect options cfg heap).2 inner).callbacks "update" "gorm:update"
        = cfg.interceptors.foldl
            (fun handler inte => inte cfg.dsnCfg "gorm:update" options handler)
            ((h0 inner).callbacks "update" "gorm:update") ∧
      ((Open env dialect options cfg heap).2 inner).callbacks "create" "gorm:create"
        = cfg.interceptors.foldl
            (fun handler inte => inte cfg.dsnCfg "gorm:create" options handler)
            ((h0 inner).callbacks "create" "gorm:create") ∧
      ((Open env dialect options cfg heap).2 inner).callbacks "query" "gorm:query"
        = cfg.interceptors.foldl
            (fun handler inte => inte cfg.dsnCfg "gorm:query" options handler)
            ((h0 inner).callbacks "query" "gorm:query") ∧
      ((Open env dialect options cfg heap).2 inner).callbacks "row_query" "gorm:row_query"
        = cfg.interceptors.foldl
            (fun handler inte => inte cfg.dsnCfg "gorm:row_query" options handler)
            ((h0 inner).callbacks "row_query" "gorm:row_query") ∧
      (∀ k n : String,
        (k, n) ∉ [("delete", "gorm:delete"), ("update", "gorm:update"),
          ("create", "gorm:create"), ("query", "gorm:query"), ("row_query", "gorm:row_query")] →
        ((Open env dialect options cfg heap).2 inner).callbacks k n
          = (h0 inner).callbacks k n) := by
  have hcb := Open_opened_callbacks env dialect options cfg heap h0 inner hopen
  refine ⟨?_, ?_, ?_, ?_, ?_, ?_⟩
  · rw [hcb]; simp
  · rw [hcb]; simp
  · rw [hcb]; simp
  · rw [hcb]; simp
  · rw [hcb]; simp
  · intro k n hkn
    rw [hcb]
    simp only [List.mem_cons, Prod.mk.injEq, List.mem_singleton, List.not_mem_nil, or_false,
      not_or] at hkn
    rw [if_neg]
    rintro (h | h | h | h | h)
    · exact hkn.1 h
    · exact hkn.2.1 h
    · exact hkn.2.2.1 h
    · exact hkn.2.2.2.1 h
    · exact hkn.2.2.2.2 h

theorem C2_open_installs_five_hooks_witness :
    (demoEnv false).gormOpen "mysql" demoCfg.DSN freshHeap = (OpenResult.opened 7, freshHeap) ∧
      ("query", "gorm:delete") ∉ [("delete", "gorm:delete"), ("update", "gorm:update"),
        ("create", "gorm:create"), ("query", "gorm:query"), ("row_query", "gorm:row_query")] ∧
      ((Open (demoEnv false) "mysql" () demoCfg freshHeap).2 7).callbacks "query" "gorm:query"
        = demoCfg.interceptors.foldl
            (fun handler inte => inte demoCfg.dsnCfg "gorm:query" () handler)
            ((freshHeap 7).callbacks "query" "gorm:query") ∧
      ((Open (demoEnv false) "mysql" () demoCfg freshHeap).2 7).callbacks "query" "gorm:delete"
        = (freshHeap 7).callbacks "query" "gorm:delete" :=
  ⟨by simp [demoEnv], by decide,
    (C2_open_installs_five_hooks (demoEnv false) "mysql" () demoCfg freshHeap freshHeap 7
      (by simp [demoEnv])).2.2.2.1,
    (C2_open_installs_five_hooks (demoEnv false) "mysql" () demoCfg freshHeap freshHeap 7
      (by simp [demoEnv])).2.2.2.2.2 "query" "gorm:delete" (by decide)⟩

/-- C3: with an empty interceptor list the replace step registers the handler it
fetched, for every processor and callback name, so the callback registry of
the processor's handle is as before; after a successful `Open` each of the five
hooks, and the whole callback registry of the opened handle, is what the engine
had registered. -/
theorem C3_no_interceptors_noop {P D E H V : Type} (env : Env E H V) (dialect : String)
    (options : P) (cfg : Config P D H) (heap h0 : Heap H V) (inner : Ptr)
    (hnil : cfg.interceptors = [])
    (hopen : env.gormOpen dialect cfg.DSN heap = (OpenResult.opened inner, h0)) :
    (∀ (processor : Unit → CallbackProcessor) (callbackName : String) (hp : Heap H V),
        (processor ()).Get callbackName
            (Open.replace cfg.dsnCfg options processor callbackName cfg.interceptors hp)
          = (processor ()).Get callbackName hp ∧
        (Open.replace cfg.dsnCfg options processor callbackName cfg.interceptors hp
            (processor ()).parent).callbacks
          = (hp (processor ()).parent).callbacks) ∧
      ((Open env dialect options cfg heap).2 inner).callbacks "delete" "gorm:delete"
        = (h0 inner).callbacks "delete" "gorm:delete" ∧
      ((Open env dialect options cfg heap).2 inner).callbacks "update" "gorm:update"
        = (h0 inner).callbacks "update" "gorm:update" ∧
      ((Open env dialect options cfg heap).2 inner).callbacks "create" "gorm:create"
        = (h0 inner).callbacks "create" "gorm:create" ∧
      ((Open env dialect options cfg heap).2 inner).callbacks "query" "gorm:query"
        = (h0 inner).callbacks "query" "gorm:query" ∧
      ((Open env dialect options cfg heap).2 inner).callbacks "row_query" "gorm:row_query"
        = (h0 inner).callbacks "row_query" "gorm:row_query" ∧
      ((Open env dialect options cfg heap).2 inner).callbacks = (h0 inner).callbacks := by
  have hall : ((Open env dialect options cfg heap).2 inner).callbacks = (h0 inner).callbacks := by
    funext k n
    rw [Open_opened_callbacks env dialect options cfg heap h0 inner hopen, hnil]
    simp
  refine ⟨?_, ?_, ?_, ?_, ?_, ?_, hall⟩
  · intro processor callbackName hp
    rw [hnil]
    exact ⟨by rw [Open.replace_Get]; rfl,
      Open.replace_nil_callbacks cfg.dsnCfg options processor callbackName hp⟩
  all_goals rw [hall]

theorem C3_no_interceptors_noop_witness :
    emptyCfg.interceptors = [] ∧
      (demoEnv false).gormOpen "mysql" emptyCfg.DSN freshHeap
        = (OpenResult.opened 7, freshHeap) ∧
      ((Open (demoEnv false) "mysql" () emptyCfg freshHeap).2 7).callbacks
        = (freshHeap 7).callbacks :=
  ⟨rfl, by simp [demoEnv],
    (C3_no_interceptors_noop (demoEnv false) "mysql" () emptyCfg freshHeap freshHeap 7 rfl
      (by simp [demoEnv])).2.2.2.2.2.2⟩

/-! ## Claims about `WithContext` -/

/-- C8: attaching `c1` and then `c2` to the same handle leaves `c2` in the
`_context` slot, gives the same handle and heap as attaching `c2` alone, and
`c1` is not what the slot returns unless it is `c2` itself. -/
theorem C8_with_context_overwrites {H V : Type} (c1 c2 : V) (db : Ptr) (heap : Heap H V) :
    Get (WithContext c2 (WithContext c1 db heap).1 (WithContext c1 db heap).2).1 "_context"
        (WithContext c2 (WithContext c1 db heap).1 (WithContext c1 db heap).2).2 = some c2 ∧
      WithContext c2 (WithContext c1 db heap).1 (WithContext c1 db heap).2
        = WithContext c2 db heap ∧
      (c1 ≠ c2 →
        Get db "_context"
          (WithContext c2 (WithContext c1 db heap).1 (WithContext c1 db heap).2).2
          ≠ some c1) := by
  have hget : Get db "_context" (InstantSet db "_context" c2 (InstantSet db "_context" c1 heap))
      = some c2 := by
    simp [Get, InstantSet, Heap.modify]
  refine ⟨?_, ?_, ?_⟩
  · simpa [WithContext] using hget
  · simp only [WithContext, Prod.mk.injEq, true_and]
    funext p
    by_cases hp : p = db
    · subst hp
      simp only [InstantSet, Heap.modify, if_true]
      congr 1
      funext k
      by_cases hk : k = "_context" <;> simp [hk]
    · simp [InstantSet, Heap.modify, hp]
  · intro hne
    simp only [WithContext]
    rw [hget]
    intro h
    exact hne (Option.some.inj h).symm

theorem C8_with_context_overwrites_witness :
    (1 : Nat) ≠ 2 ∧
      Get 7 "_context"
        (WithContext 2 (WithContext 1 7 freshHeap).1 (WithContext 1 7 freshHeap).2).2
        ≠ some 1 :=
  ⟨by decide, (C8_with_context_overwrites 1 2 7 freshHeap).2.2 (by decide)⟩

/-- C9: `WithContext` returns the handle it was given; in the heap after the
call that handle has `ctx` in its `_context` slot, every other slot, the log
mode, the pool settings and the callback registry are as before, and no other
handle is touched. -/
theorem C9_with_context_in_place {H V : Type} (ctx : V) (db : Ptr) (heap : Heap H V) :
    (WithContext ctx db heap).1 = db ∧
      Get db "_context" (WithContext ctx db heap).2 = some ctx ∧
      (∀ name : String, name ≠ "_context" →
        Get db name (WithContext ctx db heap).2 = Get db name heap) ∧
      ((WithContext ctx db heap).2 db).logMode = (heap db).logMode ∧
      ((WithContext ctx db heap).2 db).db = (heap db).db ∧
      ((WithContext ctx db heap).2 db).callbacks = (heap db).callbacks ∧
      (∀ p : Ptr, p ≠ db → (WithContext ctx db heap).2 p = heap p) := by
  refine ⟨rfl, ?_, ?_, ?_, ?_, ?_, ?_⟩
  · simp [WithContext, Get, InstantSet, Heap.modify]
  · intro name hname
    simp [WithContext, Get, InstantSet, Heap.modify, hname]
  · simp [WithContext, InstantSet, Heap.modify]
  · simp [WithContext, InstantSet, Heap.modify]
  · simp [WithContext, InstantSet, Heap.modify]
  · intro p hp
    simp [WithContext, InstantSet, Heap.modify, hp]

theorem C9_with_context_in_place_witness :
    "_trace" ≠ "_context" ∧ (8 : Ptr) ≠ 7 ∧
      Get 7 "_trace" (WithContext 5 7 (InstantSet 7 "_trace" 3 freshHeap)).2 = some 3 ∧
      (WithContext 5 7 (InstantSet 7 "_trace" 3 freshHeap)).2 8 = freshHeap 8 :=
  ⟨by decide, by decide,
    ((C9_with_context_in_place 5 7 (InstantSet 7 "_trace" 3 freshHeap)).2.2.1 "_trace"
      (by decide)).trans (by simp [Get, InstantSet, Heap.modify]),
    ((C9_with_context_in_place 5 7 (InstantSet 7 "_trace" 3 freshHeap)).2.2.2.2.2.2 8
      (by decide)).trans (by simp [InstantSet, Heap.modify])⟩

end OrmGorm
